import Mathlib

/-!
Verification development for the `regpath` library: a path-like abstraction
over the Windows registry (`RegPath`), with an identity cache, hive
singletons, lazy handle lifecycle, directory-like operations and typed
value operations.

The Python source (`regpath.py`) is shallowly embedded below:

* `_normalize_type` becomes `normalize_type`, a pure function over an
  embedded fragment of Python values (`PyValue`) and type hints (`TypeHint`).
* `RegPath.__new__`, the module-level `HIVES` / `HK_ALIASES` / `_HIVES`
  tables and the bootstrap of the seven hive singletons become
  `regPathNew` / `HIVES`-style lookups over an explicit program state `St`
  (a heap of path objects plus the `_CACHE` association list), so that
  Python object identity is observable as heap identifiers.
* The `winreg` collaborator becomes a small deterministic machine: registry
  trees per (host, hive), a handle table, an injected-fault set for
  `CloseKey`, a denial set for access errors, and a trace of collaborator
  calls.  Python `OSError` and friends become the `Err` type; methods
  return `Res α`, which carries the state both on success and on failure
  (Python exceptions do not roll back collaborator state).
* The methods `open`, `close`, `exists`, `mkdir`, `clear`, `rmtree`,
  `rmdir`, `delete_child`, `delete_value`, `parent` and `/` (join) are
  translated clause by clause; recursion through the object graph
  (`clear` → `rmtree` → `clear`, `open` of the hive inside `_invoke_api`)
  is made total with an explicit fuel parameter.
-/

/-- Python exception kinds raised by the embedded code.  `os n` is
`OSError` with `winerror = n`; `value`/`runtime` are `ValueError` and
`RuntimeError` with their message; `key` is `KeyError` (dict/enum lookup),
`index` is `IndexError`; `fuel` marks exhaustion of the artificial fuel
and occurs in no theorem about the code. -/
inductive Err : Type where
  | os (winerror : Int)
  | value (msg : String)
  | runtime (msg : String)
  | key
  | index
  | fuel
deriving DecidableEq, Repr

/-- Embedded fragment of Python values as passed to `_normalize_type`:
a string, `None`, an `int`, a (non-string) iterable of values, or any
other non-iterable object. -/
inductive PyValue : Type where
  | str (s : String)
  | none
  | int (n : Int)
  | iter (elems : List PyValue)
  | other

/-- The `typ` argument of `_normalize_type`: absent (`None`), an integer
code, or a symbolic name. -/
inductive TypeHint : Type where
  | none
  | int (n : Int)
  | str (s : String)
deriving DecidableEq, Repr

/-- Member table of the `Type` enum (`winreg` registry value-type
constants); `Type[name]` in the source is a lookup in this table.
Alias members (`DWORD_LITTLE_ENDIAN`, `QWORD_LITTLE_ENDIAN`) are
retrievable by name exactly as in a Python `IntEnum`. -/
def typeMember (s : String) : Option Int :=
  if s = "BINARY" then some 3
  else if s = "DWORD" then some 4
  else if s = "DWORD_LITTLE_ENDIAN" then some 4
  else if s = "DWORD_BIG_ENDIAN" then some 5
  else if s = "EXPAND_SZ" then some 2
  else if s = "LINK" then some 6
  else if s = "MULTI_SZ" then some 7
  else if s = "NONE" then some 0
  else if s = "QWORD" then some 11
  else if s = "QWORD_LITTLE_ENDIAN" then some 11
  else if s = "SZ" then some 1
  else if s = "RESOURCE_LIST" then some 8
  else if s = "FULL_RESOURCE_DESCRIPTOR" then some 9
  else if s = "RESOURCE_REQUIREMENTS_LIST" then some 10
  else none

def TYPE_SZ : Int := 1
def TYPE_NONE : Int := 0
def TYPE_DWORD : Int := 4
def TYPE_QWORD : Int := 11
def TYPE_MULTI_SZ : Int := 7

/-- Whether a `PyValue` is a Python `str` (`isinstance(i, str)`). -/
def PyValue.isStr : PyValue → Bool
  | .str _ => true
  | _ => false

/-- Embedding of `_normalize_type(typ, value)`.  The `typ is None` block
returns early on a matching value shape and otherwise falls through to the
`isinstance(typ, int)` / `isinstance(typ, str)` checks, which fail for
`typ = None`, ending at `raise RuntimeError("Unknown type")`.  An unknown
symbolic name raises `KeyError` (`Type[typ]`). -/
def normalize_type (typ : TypeHint) (value : PyValue) : Except Err Int :=
  match typ with
  | .none =>
    match value with
    | .str _ => .ok TYPE_SZ
    | .none => .ok TYPE_NONE
    | .int n =>
      if -0x80000000 < n ∧ n < 0xffffffff then .ok TYPE_DWORD
      else if -0x8000000000000000 < n ∧ n < 0xffffffffffffffff then .ok TYPE_QWORD
      else .error (.runtime "Unknown type")
    | .iter elems =>
      if elems.all PyValue.isStr then .ok TYPE_MULTI_SZ
      else .error (.runtime "Unknown type")
    | .other => .error (.runtime "Unknown type")
  | .int n => .ok n
  | .str s =>
    match typeMember s with
    | some t => .ok t
    | Option.none => .error Err.key

/-- Python `s.split('\\')` (single-character separator, empty segments
kept, `''` splitting to `['']`), structurally on the character list. -/
def splitChar (c : Char) : List Char → List (List Char)
  | [] => [[]]
  | x :: xs =>
    let r := splitChar c xs
    if x = c then [] :: r
    else
      match r with
      | [] => [[x]]
      | y :: ys => (x :: y) :: ys

/-- `s.split('\\')` on a `String`. -/
def pySplitBS (s : String) : List String :=
  (splitChar '\\' s.data).map fun cs => String.mk cs

/-- Python `'\\'.join(parts)`. -/
def joinBS : List String → String
  | [] => ""
  | [x] => x
  | x :: xs => x ++ "\\" ++ joinBS xs

/-- First-match association lookup (Python `dict` lookup; key order is
irrelevant because keys are unique in every table we build). -/
def assocFind {κ α : Type} [DecidableEq κ] : List (κ × α) → κ → Option α
  | [], _ => none
  | (k, a) :: rest, k0 => if k = k0 then some a else assocFind rest k0

/-- Update the first entry with the given key, if present. -/
def assocUpdate {κ α : Type} [DecidableEq κ] : List (κ × α) → κ → (α → α) → List (κ × α)
  | [], _, _ => []
  | (k, a) :: rest, k0, f =>
    if k = k0 then (k, f a) :: rest else (k, a) :: assocUpdate rest k0 f

/-- Remove the first entry with the given key, if present. -/
def assocRemove {κ α : Type} [DecidableEq κ] : List (κ × α) → κ → List (κ × α)
  | [], _ => []
  | (k, a) :: rest, k0 =>
    if k = k0 then rest else (k, a) :: assocRemove rest k0

/-- One registry value entry: `(name, data, type)` as returned by
`EnumValue`; the default value has `name = none`. -/
structure ValueEnt where
  name : Option String
  data : Int
  typ : Int
deriving DecidableEq, Repr

/-- A registry key: named sub-keys in enumeration order and value entries
in enumeration order.  This is the state of the external `winreg`
collaborator, which the spec treats as a black box; we model exactly the
operations the embedded code invokes. -/
inductive RegNode : Type where
  | node (subkeys : List (String × RegNode)) (values : List ValueEnt)

def RegNode.subkeys : RegNode → List (String × RegNode)
  | .node sks _ => sks

def RegNode.values : RegNode → List ValueEnt
  | .node _ vs => vs

/-- Find the node at a relative component path. -/
def RegNode.find? : RegNode → List String → Option RegNode
  | t, [] => some t
  | t, p :: ps =>
    match assocFind t.subkeys p with
    | some sub => sub.find? ps
    | none => none

/-- Apply `f` to the node at a relative path (no-op when absent). -/
def RegNode.updateAt : RegNode → List String → (RegNode → RegNode) → RegNode
  | t, [], f => f t
  | .node sks vs, p :: ps, f => .node (assocUpdate sks p (·.updateAt ps f)) vs

/-- Create every missing key along a relative path (`RegCreateKeyEx`
creates intermediate keys). -/
def RegNode.createPath : RegNode → List String → RegNode
  | t, [] => t
  | .node sks vs, p :: ps =>
    match assocFind sks p with
    | some _ => RegNode.node (assocUpdate sks p (·.createPath ps)) vs
    | none => RegNode.node (sks ++ [(p, RegNode.createPath (RegNode.node [] []) ps)]) vs

/-- One collaborator (public `winreg` function) call, as recorded in the
trace. -/
inductive Call : Type where
  | connectRegistry (host : Option String) (hiveKey : Int)
  | openKeyEx (h : Int) (sub : String) (reserved : Int) (access : Int)
  | createKeyEx (h : Int) (sub : String) (reserved : Int) (access : Int)
  | closeKey (h : Int)
  | queryInfoKey (h : Int)
  | enumKey (h : Int) (i : Nat)
  | enumValue (h : Int) (i : Nat)
  | deleteKey (h : Int) (name : String)
  | deleteValue (h : Int) (name : Option String)
deriving DecidableEq, Repr

/-- State of the external collaborator: registry trees per
(remote host, hive name) with `none` the local machine, a denial set
injecting access failures on open/create, an injected-fault set for
`CloseKey`, the open-handle table, and the trace of calls made so far. -/
structure Sys where
  machines : List (Option String × List (String × RegNode))
  denied : List (Option String × List String)
  closeFails : List Int
  handles : List (Int × (Option String × List String))
  nextH : Int
  trace : List Call

/-- A Python `RegPath` object: `_parts`, `_remote_host` and `key`
(`None` encoded as `none`). -/
structure PathObj where
  parts : List String
  remote : Option String
  key : Option Int
deriving DecidableEq, Repr

/-- Full program state: the heap of allocated `RegPath` objects keyed by
identity, the allocation counter, the class-level `_CACHE`
(a `WeakValueDictionary` keyed by `(remote_host, parts)`), the
module-level `HIVES` table mapping hive names and aliases to the
singleton objects, and the collaborator state. -/
structure St where
  heap : List (Nat × PathObj)
  nextId : Nat
  cache : List ((Option String × List String) × Nat)
  hives : List (String × Nat)
  sys : Sys

/-- Result of running an embedded method: Python exceptions carry the
state at the raise point (no rollback). -/
inductive Res (α : Type) : Type where
  | ok (a : α) (st : St)
  | err (e : Err) (st : St)

def getObj (st : St) (id : Nat) : Option PathObj :=
  assocFind st.heap id

def setKey (st : St) (id : Nat) (k : Option Int) : St :=
  { st with heap := assocUpdate st.heap id (fun o => { o with key := k }) }

def pushTrace (st : St) (c : Call) : St :=
  { st with sys := { st.sys with trace := st.sys.trace ++ [c] } }

/-- Drop a handle from the collaborator's handle table. -/
def removeHandle (st : St) (h : Int) : St :=
  { st with sys := { st.sys with handles := assocRemove st.sys.handles h } }

/-- The `_HIVES` dict: hive name to well-known root handle constant. -/
def hiveConst (s : String) : Option Int :=
  if s = "HKEY_CLASSES_ROOT" then some 0x80000000
  else if s = "HKEY_CURRENT_CONFIG" then some 0x80000005
  else if s = "HKEY_CURRENT_USER" then some 0x80000001
  else if s = "HKEY_LOCAL_MACHINE" then some 0x80000002
  else if s = "HKEY_USERS" then some 0x80000003
  else if s = "HKEY_DYN_DATA" then some 0x80000006
  else if s = "HKEY_PERFORMANCE_DATA" then some 0x80000004
  else none

/-- Reverse of `hiveConst`: which local hive a well-known handle denotes. -/
def hiveOfConst (h : Int) : Option String :=
  if h = 0x80000000 then some "HKEY_CLASSES_ROOT"
  else if h = 0x80000005 then some "HKEY_CURRENT_CONFIG"
  else if h = 0x80000001 then some "HKEY_CURRENT_USER"
  else if h = 0x80000002 then some "HKEY_LOCAL_MACHINE"
  else if h = 0x80000003 then some "HKEY_USERS"
  else if h = 0x80000006 then some "HKEY_DYN_DATA"
  else if h = 0x80000004 then some "HKEY_PERFORMANCE_DATA"
  else none

/-- `Access.READ` = `winreg.KEY_READ`. -/
def accessREAD : Int := 0x20019

/-- What a handle refers to: well-known constants denote local hive
roots, anything else is looked up in the handle table. -/
def resolveHandle (sys : Sys) (h : Int) : Option (Option String × List String) :=
  match hiveOfConst h with
  | some n => some (none, [n])
  | none => assocFind sys.handles h

/-- The registry tree of a (host, hive) pair. -/
def getTree (sys : Sys) (host : Option String) (hive : String) : Option RegNode :=
  match assocFind sys.machines host with
  | some hm => assocFind hm hive
  | none => none

/-- The node at a full location `(host, hive :: sub)`. -/
def findLoc (sys : Sys) (host : Option String) : List String → Option RegNode
  | [] => none
  | hive :: sub =>
    match getTree sys host hive with
    | some t => t.find? sub
    | none => none

/-- Rewrite the tree of one (host, hive) pair. -/
def updateTree (sys : Sys) (host : Option String) (hive : String) (f : RegNode → RegNode) : Sys :=
  { sys with machines := assocUpdate sys.machines host (fun hm => assocUpdate hm hive f) }

/-- A sub-key argument string as a relative component path: `''` denotes
the key itself, otherwise split on the separator. -/
def subOfString (sub : String) : List String :=
  if sub = "" then [] else pySplitBS sub

/-- `winreg.ConnectRegistry(host, hive_key)`: a handle to the named
hive's root on the given machine. -/
def wConnectRegistry (host : Option String) (hiveKey : Int) (st0 : St) : Res Int :=
  let st := pushTrace st0 (.connectRegistry host hiveKey)
  match hiveOfConst hiveKey with
  | none => .err (.os 6) st
  | some hiveName =>
    match assocFind st.sys.machines host with
    | none => .err (.os 53) st
    | some hm =>
      match assocFind hm hiveName with
      | none => .err (.os 2) st
      | some _ =>
        let h := st.sys.nextH
        .ok h { st with sys := { st.sys with
          handles := st.sys.handles ++ [(h, (host, [hiveName]))],
          nextH := h + 1 } }

/-- `winreg.OpenKeyEx(key, sub_key, reserved, access)`: fails with
`winerror = 2` when absent, `winerror = 5` on a denied location. -/
def wOpenKeyEx (h : Int) (sub : String) (reserved : Int) (access : Int) (st0 : St) : Res Int :=
  let st := pushTrace st0 (.openKeyEx h sub reserved access)
  match resolveHandle st.sys h with
  | none => .err (.os 6) st
  | some (host, base) =>
    let target := base ++ subOfString sub
    if (host, target) ∈ st.sys.denied then .err (.os 5) st
    else
      match findLoc st.sys host target with
      | none => .err (.os 2) st
      | some _ =>
        let hNew := st.sys.nextH
        .ok hNew { st with sys := { st.sys with
          handles := st.sys.handles ++ [(hNew, (host, target))],
          nextH := hNew + 1 } }

/-- `winreg.CreateKeyEx(key, sub_key, reserved, access)`: opens the key,
creating it and any missing intermediate keys first. -/
def wCreateKeyEx (h : Int) (sub : String) (reserved : Int) (access : Int) (st0 : St) : Res Int :=
  let st := pushTrace st0 (.createKeyEx h sub reserved access)
  match resolveHandle st.sys h with
  | none => .err (.os 6) st
  | some (host, base) =>
    let target := base ++ subOfString sub
    if (host, target) ∈ st.sys.denied then .err (.os 5) st
    else
      match target with
      | [] => .err (.os 6) st
      | hive :: rest =>
        match getTree st.sys host hive with
        | none => .err (.os 2) st
        | some _ =>
          let sys1 := updateTree st.sys host hive (·.createPath rest)
          let hNew := sys1.nextH
          .ok hNew { st with sys := { sys1 with
            handles := sys1.handles ++ [(hNew, (host, target))],
            nextH := hNew + 1 } }

/-- `winreg.QueryInfoKey(key)`: `(sub-key count, value count, timestamp)`;
the timestamp is modelled as `0`. -/
def wQueryInfoKey (h : Int) (st0 : St) : Res (Nat × Nat × Int) :=
  let st := pushTrace st0 (.queryInfoKey h)
  match resolveHandle st.sys h with
  | none => .err (.os 6) st
  | some (host, base) =>
    match findLoc st.sys host base with
    | none => .err (.os 1018) st
    | some t => .ok (t.subkeys.length, t.values.length, 0) st

/-- `winreg.EnumKey(key, index)`: the index-th sub-key name, or
`winerror = 259` (no more data) past the end. -/
def wEnumKey (h : Int) (i : Nat) (st0 : St) : Res String :=
  let st := pushTrace st0 (.enumKey h i)
  match resolveHandle st.sys h with
  | none => .err (.os 6) st
  | some (host, base) =>
    match findLoc st.sys host base with
    | none => .err (.os 1018) st
    | some t =>
      match t.subkeys.get? i with
      | some (n, _) => .ok n st
      | none => .err (.os 259) st

/-- `winreg.EnumValue(key, index)`: the index-th value triple, or
`winerror = 259` past the end. -/
def wEnumValue (h : Int) (i : Nat) (st0 : St) : Res (Option String × Int × Int) :=
  let st := pushTrace st0 (.enumValue h i)
  match resolveHandle st.sys h with
  | none => .err (.os 6) st
  | some (host, base) =>
    match findLoc st.sys host base with
    | none => .err (.os 1018) st
    | some t =>
      match t.values.get? i with
      | some v => .ok (v.name, v.data, v.typ) st
      | none => .err (.os 259) st

/-- `winreg.DeleteKey(key, name)`: deletes the named direct sub-key;
fails with `winerror = 2` when absent and `winerror = 5` when the sub-key
itself still has sub-keys (`RegDeleteKey` cannot delete a key with
children).  Callers in this code pass only single component names. -/
def wDeleteKey (h : Int) (name : String) (st0 : St) : Res Unit :=
  let st := pushTrace st0 (.deleteKey h name)
  match resolveHandle st.sys h with
  | none => .err (.os 6) st
  | some (host, base) =>
    match findLoc st.sys host base with
    | none => .err (.os 1018) st
    | some t =>
      match assocFind t.subkeys name with
      | none => .err (.os 2) st
      | some child =>
        if child.subkeys.isEmpty then
          match base with
          | [] => .err (.os 6) st
          | hive :: rest =>
            .ok () { st with sys := (updateTree st.sys host hive
              (·.updateAt rest (fun u => RegNode.node (assocRemove u.subkeys name) u.values))) }
        else .err (.os 5) st

/-- Remove the first value entry with the given name. -/
def removeValue : List ValueEnt → Option String → List ValueEnt
  | [], _ => []
  | v :: rest, n => if v.name = n then rest else v :: removeValue rest n

/-- `winreg.DeleteValue(key, name)`: deletes the named value, failing
with `winerror = 2` when absent. -/
def wDeleteValue (h : Int) (name : Option String) (st0 : St) : Res Unit :=
  let st := pushTrace st0 (.deleteValue h name)
  match resolveHandle st.sys h with
  | none => .err (.os 6) st
  | some (host, base) =>
    match findLoc st.sys host base with
    | none => .err (.os 1018) st
    | some t =>
      if t.values.any (fun v => v.name = name) then
        match base with
        | [] => .err (.os 6) st
        | hive :: rest =>
          .ok () { st with sys := (updateTree st.sys host hive
            (·.updateAt rest (fun u => RegNode.node u.subkeys (removeValue u.values name)))) }
      else .err (.os 2) st

/-- `winreg.CloseKey(key)`: succeeds as a no-op on the well-known root
constants, releases table handles, fails with `winerror = 6` on an
unknown handle; handles in `closeFails` model a collaborator-level close
failure (the injected fault of the close-failure claims). -/
def wCloseKey (h : Int) (st0 : St) : Res Unit :=
  let st := pushTrace st0 (.closeKey h)
  if h ∈ st.sys.closeFails then .err (.os 5) st
  else
    match hiveOfConst h with
    | some _ => .ok () st
    | none =>
      match assocFind st.sys.handles h with
      | some _ =>
        .ok () { st with sys := { st.sys with handles := assocRemove st.sys.handles h } }
      | none => .err (.os 6) st

/-- `HK_ALIASES.get(s, s)`: canonicalize a hive alias, leaving any other
string unchanged. -/
def aliasGet (s : String) : String :=
  if s = "HKCR" then "HKEY_CLASSES_ROOT"
  else if s = "HKCC" then "HKEY_CURRENT_CONFIG"
  else if s = "HKCU" then "HKEY_CURRENT_USER"
  else if s = "HKLM" then "HKEY_LOCAL_MACHINE"
  else if s = "HKU" then "HKEY_USERS"
  else if s = "HKDD" then "HKEY_DYN_DATA"
  else if s = "HKPD" then "HKEY_PERFORMANCE_DATA"
  else s

/-- The `parts` argument of `RegPath(parts, remote_host)`: a delimited
string or an already-split component sequence. -/
inductive RPInput : Type where
  | strI (s : String)
  | listI (l : List String)

/-- The string-preprocessing block of `RegPath.__new__`: split on the
separator; a UNC-style `\\\\host\...` prefix with at least three segments
extracts the remote host (conflicting with an explicit `remote_host`
argument is a `ValueError`); otherwise a leading empty segment is
dropped; an empty component sequence after this processing is a
`RuntimeError`.  This block runs only for string input. -/
def strSplit (s : String) (rh : Option String) : Except Err (List String × Option String) :=
  let parts := pySplitBS s
  if 3 ≤ parts.length ∧ parts.getD 0 "x" = "" ∧ parts.getD 1 "x" = "" then
    match rh with
    | some _ => .error (.value "Remote host given using argument, but path already has remote host")
    | none =>
      match parts.drop 2 with
      | [] => .error (.runtime "Empty path or missing component")
      | host :: rest =>
        if rest.isEmpty then .error (.runtime "Empty path or missing component")
        else .ok (rest, some ("\\\\" ++ host))
  else
    let parts2 := if parts.getD 0 "x" = "" then parts.drop 1 else parts
    if parts2.isEmpty then .error (.runtime "Empty path or missing component")
    else .ok (parts2, rh)

/-- Cache lookup and fresh construction in `RegPath.__new__`: look up
`(remote_host, parts)` in `_CACHE`; on a miss build a fresh object whose
`key` is the well-known root handle for a one-component local path
(`KeyError` when that hive name is unknown) and `None` otherwise.
Faithful to the source, the fresh object is never inserted into the
cache. -/
def cacheOrNew (parts : List String) (rh : Option String) (st : St) : Res Nat :=
  match assocFind st.cache (rh, parts) with
  | some i => .ok i st
  | none =>
    let keyE : Except Err (Option Int) :=
      if parts.length = 1 ∧ rh = none then
        match parts with
        | [] => .error .index
        | p0 :: _ =>
          match hiveConst p0 with
          | some k => .ok (some k)
          | none => .error .key
      else .ok none
    match keyE with
    | .error e => .err e st
    | .ok k =>
      let i := st.nextId
      .ok i { st with heap := st.heap ++ [(i, ⟨parts, rh, k⟩)], nextId := i + 1 }

/-- The component-sequence part of `RegPath.__new__`: canonicalize the
first component through `HK_ALIASES` (an empty sequence hits the
`parts[0]` index and raises `IndexError`), return the `HIVES` singleton
for a one-component local path when registered, otherwise defer to the
cache. -/
def regPathNewCore (parts0 : List String) (rh : Option String) (st : St) : Res Nat :=
  match parts0 with
  | [] => .err .index st
  | p0 :: rest =>
    let c := aliasGet p0
    let parts := c :: rest
    if parts.length = 1 ∧ rh = none then
      match assocFind st.hives c with
      | some i => .ok i st
      | none => cacheOrNew parts rh st
    else cacheOrNew parts rh st

/-- `RegPath.__new__(cls, parts, remote_host)` in full. -/
def regPathNew (input : RPInput) (rh0 : Option String) (st : St) : Res Nat :=
  match input with
  | .strI s =>
    match strSplit s rh0 with
    | .error e => .err e st
    | .ok (parts, rh) => regPathNewCore parts rh st
  | .listI l => regPathNewCore l rh0 st

/-- One line of the module bootstrap:
`HIVES[full] = HIVES[alias] = RegPath(full)`. -/
def bootOne (full short : String) (st : St) : St :=
  match regPathNew (.strI full) none st with
  | .ok i st1 => { st1 with hives := st1.hives ++ [(full, i), (short, i)] }
  | .err _ st1 => st1

/-- Collaborator state before any call: no machines configured, no
faults, no handles, empty trace. -/
def sys0 : Sys := ⟨[], [], [], [], 1000, []⟩

def emptySt : St := ⟨[], 0, [], [], sys0⟩

/-- The module-load state: the seven hive singletons constructed in
source order and registered in `HIVES` under their full names and
aliases. -/
def initSt : St :=
  bootOne "HKEY_PERFORMANCE_DATA" "HKPD"
    (bootOne "HKEY_DYN_DATA" "HKDD"
      (bootOne "HKEY_USERS" "HKU"
        (bootOne "HKEY_LOCAL_MACHINE" "HKLM"
          (bootOne "HKEY_CURRENT_USER" "HKCU"
            (bootOne "HKEY_CURRENT_CONFIG" "HKCC"
              (bootOne "HKEY_CLASSES_ROOT" "HKCR" emptySt))))))

/-- A state with the given machines configured, from the module-load
state (the Python process connects the module to a registry). -/
def stWith (machines : List (Option String × List (String × RegNode))) : St :=
  { initSt with sys := { initSt.sys with machines := machines } }

/-- `RegPath.open()`.  A no-op when a handle is held.  Remote: connect to
the host's hive and adopt that handle for a hive path, else open the
joined sub-path under it with read access.  Local: delegate to the hive
singleton's `_invoke_api('OpenKeyEx', ...)`, which first calls the hive's
own `open()` — the source would recurse forever on a local hive with no
handle, so that unreachable recursion consumes `fuel`. -/
def openM (fuel : Nat) (id : Nat) (st : St) : Res Unit :=
  match getObj st id with
  | none => .err .key st
  | some obj =>
    if obj.key.isSome then .ok () st
    else
      match obj.remote with
      | some host =>
        match obj.parts with
        | [] => .err .index st
        | p0 :: rest =>
          match hiveConst p0 with
          | none => .err .key st
          | some hk =>
            match wConnectRegistry (some host) hk st with
            | .err e st => .err e st
            | .ok h st =>
              if rest.isEmpty then .ok () (setKey st id (some h))
              else
                match wOpenKeyEx h (joinBS rest) 0 accessREAD st with
                | .err e st => .err e st
                | .ok h2 st => .ok () (setKey st id (some h2))
      | none =>
        match obj.parts with
        | [] => .err .index st
        | p0 :: rest =>
          match assocFind st.hives p0 with
          | none => .err .key st
          | some hid =>
            match fuel with
            | 0 => .err .fuel st
            | Nat.succ fuel =>
              match openM fuel hid st with
              | .err e st => .err e st
              | .ok () st =>
                match getObj st hid with
                | none => .err .key st
                | some hobj =>
                  match hobj.key with
                  | none => .err (.runtime "hive handle is None") st
                  | some hk =>
                    match wOpenKeyEx hk (joinBS rest) 0 accessREAD st with
                    | .err e st => .err e st
                    | .ok h st => .ok () (setKey st id (some h))

/-- `self._invoke_api(method, *args)`: `self.open()`, then call the
collaborator function on `self.key`; the continuation receives the
handle. -/
def selfKeyAfterOpen {α : Type} (fuel : Nat) (id : Nat) (st : St)
    (k : Int → St → Res α) : Res α :=
  match openM fuel id st with
  | .err e st => .err e st
  | .ok () st =>
    match getObj st id with
    | none => .err .key st
    | some obj =>
      match obj.key with
      | none => .err (.runtime "handle is None") st
      | some h => k h st

/-- `RegPath.close()`: when open and not a local hive root, try
`_invoke_api('CloseKey')` followed by `self.key = None`, swallowing
`OSError`; otherwise a no-op. -/
def closeM (fuel : Nat) (id : Nat) (st : St) : Res Unit :=
  match getObj st id with
  | none => .err .key st
  | some obj =>
    if obj.key.isSome ∧ (¬ obj.parts.length = 1 ∨ obj.remote.isSome) then
      match (match selfKeyAfterOpen fuel id st (fun h st => wCloseKey h st) with
             | .ok () st => Res.ok () (setKey st id none)
             | .err e st => Res.err e st) with
      | .ok () st => .ok () st
      | .err (.os _) st => .ok () st
      | .err e st => .err e st
    else .ok () st

/-- `RegPath.exists()`: `true` immediately when a handle is held, else
`open()`; `winerror == 2` becomes `false`, any other failure propagates,
success is `true`. -/
def existsM (fuel : Nat) (id : Nat) (st : St) : Res Bool :=
  match getObj st id with
  | none => .err .key st
  | some obj =>
    if obj.key.isSome then .ok true st
    else
      match openM fuel id st with
      | .err (.os n) st => if n = 2 then .ok false st else .err (.os n) st
      | .err e st => .err e st
      | .ok () st => .ok true st

/-- `RegPath.parent`: `RegPath(self.parts[:-1], self.remote_host)`. -/
def parentM (id : Nat) (st : St) : Res Nat :=
  match getObj st id with
  | none => .err .key st
  | some obj => regPathNew (.listI obj.parts.dropLast) obj.remote st

/-- `RegPath.__truediv__`:
`RegPath(list(self.parts) + list(other.split('\\')), self.remote_host)`. -/
def truedivM (id : Nat) (other : String) (st : St) : Res Nat :=
  match getObj st id with
  | none => .err .key st
  | some obj => regPathNew (.listI (obj.parts ++ pySplitBS other)) obj.remote st

/-- `RegPath.delete_child(name)`: `self._invoke_api('DeleteKey', name)`. -/
def deleteChildM (fuel : Nat) (id : Nat) (name : String) (st : St) : Res Unit :=
  selfKeyAfterOpen fuel id st (fun h st => wDeleteKey h name st)

/-- `RegPath.delete_value(name)`: `self._invoke_api('DeleteValue', name)`. -/
def deleteValueM (fuel : Nat) (id : Nat) (name : Option String) (st : St) : Res Unit :=
  selfKeyAfterOpen fuel id st (fun h st => wDeleteValue h name st)

def invokeQueryInfoKey (fuel : Nat) (id : Nat) (st : St) : Res (Nat × Nat × Int) :=
  selfKeyAfterOpen fuel id st (fun h st => wQueryInfoKey h st)

def invokeEnumKey (fuel : Nat) (id : Nat) (i : Nat) (st : St) : Res String :=
  selfKeyAfterOpen fuel id st (fun h st => wEnumKey h i st)

/-- The creation step of `mkdir`:
`self.key = self.hive._invoke_api('CreateKeyEx', '\\'.join(self.parts[1:]), 0, Access.READ)`. -/
def mkdirCreate (fuel : Nat) (id : Nat) (st : St) : Res Unit :=
  match getObj st id with
  | none => .err .key st
  | some obj =>
    match obj.parts with
    | [] => .err .index st
    | p0 :: rest =>
      match assocFind st.hives p0 with
      | none => .err .key st
      | some hid =>
        match selfKeyAfterOpen fuel hid st (fun h st => wCreateKeyEx h (joinBS rest) 0 accessREAD st) with
        | .err e st => .err e st
        | .ok h st => .ok () (setKey st id (some h))

/-- `RegPath.mkdir(parents, exist_ok)`: the two precondition checks (each
an `exists()` call, hence possibly an `open()` collaborator call), then
the creation step. -/
def mkdirM (fuel : Nat) (parents exist_ok : Bool) (id : Nat) (st : St) : Res Unit :=
  let step2 : St → Res Unit := fun st =>
    if parents = false then
      match parentM id st with
      | .err e st => .err e st
      | .ok pid st =>
        match existsM fuel pid st with
        | .err e st => .err e st
        | .ok b st =>
          if b then mkdirCreate fuel id st
          else .err (.value "Parent not exists") st
    else mkdirCreate fuel id st
  if exist_ok = false then
    match existsM fuel id st with
    | .err e st => .err e st
    | .ok b st =>
      if b then .err (.value "Already exists") st else step2 st
  else step2 st

/-- `RegPath.rmdir()`: `self.close()` then
`self.parent.delete_child(self.name)`. -/
def rmdirF (fuel : Nat) (id : Nat) (st : St) : Res Unit :=
  match closeM fuel id st with
  | .err e st => .err e st
  | .ok () st =>
    match parentM id st with
    | .err e st => .err e st
    | .ok pid st =>
      match getObj st id with
      | none => .err .key st
      | some obj =>
        match obj.parts.getLast? with
        | none => .err .index st
        | some nm => deleteChildM fuel pid nm st

/-- The continuations of the mutually recursive `rmtree`/`clear` group:
`rmtree id`, `clear id`, the sub-key loop of `clear` at index `i` of
`cc`, and the value loop of `clear` at index `i` of `vc`. -/
inductive ClearCall : Type where
  | rmtree (id : Nat)
  | clear (id : Nat)
  | sub (id i cc : Nat)
  | vals (id i vc : Nat)

/-- Fuel-indexed interpreter of the `rmtree`/`clear` recursion (one
function so that recursion is structural on the fuel and evaluation is
definitional).

* `rmtree id`: `self.clear()` then `self.rmdir()`.
* `clear id`: query `(sub-key count, value count)` once, run the
  sub-key loop, then the value loop.
* `sub id i cc`: for `i in range(cc)`, enumerate the `i`-th sub-key name
  in the *current* collaborator state and `rmtree` the joined child path.
* `vals id i vc`: faithful to the source's slip,
  `name, data, typ = self._invoke_api('EnumKey', i)` enumerates
  *sub-keys*, not values, unpacks the returned name string into three
  characters (a `ValueError` unless it has length 3), and deletes the
  value named by the first character. -/
def clearEngine : Nat → ClearCall → St → Res Unit
  | 0, _, st => .err .fuel st
  | Nat.succ fuel, c, st =>
    match c with
    | .rmtree id =>
      match clearEngine fuel (.clear id) st with
      | .err e st => .err e st
      | .ok () st => rmdirF fuel id st
    | .clear id =>
      match invokeQueryInfoKey fuel id st with
      | .err e st => .err e st
      | .ok (cc, vc, _) st =>
        match clearEngine fuel (.sub id 0 cc) st with
        | .err e st => .err e st
        | .ok () st => clearEngine fuel (.vals id 0 vc) st
    | .sub id i cc =>
      if i < cc then
        match invokeEnumKey fuel id i st with
        | .err e st => .err e st
        | .ok nm st =>
          match truedivM id nm st with
          | .err e st => .err e st
          | .ok cid st =>
            match clearEngine fuel (.rmtree cid) st with
            | .err e st => .err e st
            | .ok () st => clearEngine fuel (.sub id (i + 1) cc) st
      else .ok () st
    | .vals id i vc =>
      if i < vc then
        match invokeEnumKey fuel id i st with
        | .err e st => .err e st
        | .ok s st =>
          match s.data with
          | [a, _, _] =>
            match deleteValueM fuel id (some (String.mk [a])) st with
            | .err e st => .err e st
            | .ok () st => clearEngine fuel (.vals id (i + 1) vc) st
          | _ => .err (.value "not enough values to unpack") st
      else .ok () st

/-- `RegPath.rmtree()`. -/
def rmtreeF (fuel : Nat) (id : Nat) (st : St) : Res Unit :=
  clearEngine fuel (.rmtree id) st

/-- `RegPath.clear()`. -/
def clearF (fuel : Nat) (id : Nat) (st : St) : Res Unit :=
  clearEngine fuel (.clear id) st

/-- The state a method run ended in, whether it returned or raised. -/
def resState {α : Type} : Res α → St
  | .ok _ st => st
  | .err _ st => st

/-- Forget the call trace (the trace is our instrumentation, not Python
program state, so observable equality of states ignores it). -/
def eraseTrace (st : St) : St :=
  { st with sys := { st.sys with trace := [] } }

/-- Is this collaborator call a key-creation call? -/
def Call.isCreate : Call → Bool
  | .createKeyEx _ _ _ _ => true
  | _ => false

/-- The step from `st` to `st'` changed no registry tree and issued no
creation call. -/
def noCreateStep (st st' : St) : Prop :=
  st'.sys.machines = st.sys.machines ∧
  ∃ tr, st'.sys.trace = st.sys.trace ++ tr ∧ tr.all (fun c => !c.isCreate) = true

/-- An empty registry key. -/
def emptyNode : RegNode := .node [] []

/-- A local `HKEY_CURRENT_USER` tree used by the concrete runs: `Test`
has two empty sub-keys and three values (the spec's recursive-delete
example), `V` has one value and no sub-keys, `Exist` exists and is
empty. -/
def hkcuTree : RegNode :=
  .node [("Test", .node [("A", emptyNode), ("B", emptyNode)]
            [⟨some "v1", 1, 1⟩, ⟨some "v2", 2, 4⟩, ⟨some "v3", 3, 4⟩]),
         ("V", .node [] [⟨some "x", 5, 1⟩]),
         ("Exist", emptyNode)] []

/-- Module-load state wired to a local machine whose `HKEY_CURRENT_USER`
hive is `hkcuTree`. -/
def c2St : St := stWith [(none, [("HKEY_CURRENT_USER", hkcuTree)])]

/-- Resolve `HKCU\Software` twice from the module-load state and report
`(first id, second id, cache after both)`.  The cache stays empty and the
ids differ: `__new__` looks `(remote_host, parts)` up in `_CACHE` but no
statement ever stores into `_CACHE`, so every non-singleton resolution
builds a fresh object. -/
def c1probe : Bool :=
  match regPathNew (.strI "HKCU\\Software") none initSt with
  | .ok i st1 =>
    match regPathNew (.strI "HKCU\\Software") none st1 with
    | .ok j st2 => i != j && st1.cache.isEmpty && st2.cache.isEmpty
    | .err _ _ => false
  | .err _ _ => false

/-- Run `rmtree()` on `HKCU\Test` (two sub-keys, three values): the run
must end in `OSError` 259 (no more data), with `Test` still existing,
sub-key `A` deleted but `B` surviving, and all three values surviving;
and on `HKCU\V` (no sub-keys, one value): `OSError` 259 again from the
value loop's `EnumKey` call, with the value surviving. -/
def c2probe : Bool :=
  (match regPathNew (.strI "HKCU\\Test") none c2St with
   | .ok i st =>
     match rmtreeF 20 i st with
     | .err (.os n) stf =>
       n == 259 &&
       (findLoc stf.sys none ["HKEY_CURRENT_USER", "Test"]).isSome &&
       !(findLoc stf.sys none ["HKEY_CURRENT_USER", "Test", "A"]).isSome &&
       (findLoc stf.sys none ["HKEY_CURRENT_USER", "Test", "B"]).isSome &&
       (match findLoc stf.sys none ["HKEY_CURRENT_USER", "Test"] with
        | some t => t.values.length == 3
        | none => false)
     | _ => false
   | .err _ _ => false) &&
  (match regPathNew (.strI "HKCU\\V") none c2St with
   | .ok i st =>
     match rmtreeF 20 i st with
     | .err (.os n) stf =>
       n == 259 &&
       (match findLoc stf.sys none ["HKEY_CURRENT_USER", "V"] with
        | some t => t.values.length == 1
        | none => false)
     | _ => false
   | .err _ _ => false)

/-- `mkdir(exist_ok=False)` on the existing `HKCU\Exist` from a state
with an empty trace: the run raises `ValueError("Already exists")`, but
the trace at the raise is non-empty — the `exists()` precondition check
already called the collaborator's `OpenKeyEx`. -/
def c5probe : Bool :=
  match regPathNew (.strI "HKCU\\Exist") none c2St with
  | .ok i st =>
    (match mkdirM 10 true false i st with
     | .err (.value m) stf =>
       m == "Already exists" && !stf.sys.trace.isEmpty && c2St.sys.trace.isEmpty
     | _ => false)
  | .err _ _ => false

/-- Two runs of `parent` refuting the claim: the two-component path
`FOO\Bar` (unknown hive) raises `KeyError` from `parent` — not a parent
object with the first component as parts — and `parent` of the `HKCU`
singleton (heap id 2) raises `IndexError` at `parts[0]`, not the
`RuntimeError("Empty path or missing component")` the empty-sequence
rejection would raise. -/
def c9probe : Bool :=
  (match regPathNew (.listI ["FOO", "Bar"]) none initSt with
   | .ok i st1 =>
     (match parentM i st1 with
      | .err Err.key _ => true
      | _ => false)
   | .err _ _ => false) &&
  (match parentM 2 initSt with
   | .err Err.index _ => true
   | _ => false)

/-- A state with one open remote path object (id 0, handle 42) whose
handle is in the collaborator's close-fault set. -/
def faultSt : St :=
  { heap := [(0, ⟨["HKEY_LOCAL_MACHINE", "Soft"], some "\\\\srv", some 42⟩)],
    nextId := 1, cache := [], hives := [],
    sys := { machines := [], denied := [], closeFails := [42],
             handles := [(42, (some "\\\\srv", ["HKEY_LOCAL_MACHINE", "Soft"]))],
             nextH := 43, trace := [] } }

/-- `faultSt` without the injected close fault. -/
def okSt : St :=
  { faultSt with sys := { faultSt.sys with closeFails := [] } }

/-- The returned object id of a resolution (`0` on error; used only on
runs known to succeed). -/
def residOf (r : Res Nat) : Nat :=
  match r with
  | .ok i _ => i
  | .err _ _ => 0

def c5Exist : Res Nat := regPathNew (.strI "HKCU\\Exist") none c2St

def c5Miss : Res Nat := regPathNew (.strI "HKCU\\Miss\\Child") none c2St

def c5New : Res Nat := regPathNew (.strI "HKCU\\New\\Sub") none c2St

def c6Nope : Res Nat := regPathNew (.strI "HKCU\\Nope") none c2St

def c9Deep : Res Nat := regPathNew (.listI ["HKEY_CURRENT_USER", "Software", "X"]) none initSt

theorem aliasGet_cases (s : String) :
    aliasGet s = s ∨ aliasGet s = "HKEY_CLASSES_ROOT" ∨ aliasGet s = "HKEY_CURRENT_CONFIG" ∨
    aliasGet s = "HKEY_CURRENT_USER" ∨ aliasGet s = "HKEY_LOCAL_MACHINE" ∨
    aliasGet s = "HKEY_USERS" ∨ aliasGet s = "HKEY_DYN_DATA" ∨
    aliasGet s = "HKEY_PERFORMANCE_DATA" := by
  unfold aliasGet
  split_ifs <;> simp

theorem aliasGet_idem (s : String) : aliasGet (aliasGet s) = aliasGet s := by
  rcases aliasGet_cases s with h | h | h | h | h | h | h | h
  · rw [h]; exact h
  all_goals (rw [h]; rfl)

theorem normalize_type_int_eq (n : Int) : normalize_type .none (.int n) =
    (if -0x80000000 < n ∧ n < 0xffffffff then .ok TYPE_DWORD
     else if -0x8000000000000000 < n ∧ n < 0xffffffffffffffff then .ok TYPE_QWORD
     else .error (.runtime "Unknown type")) := rfl

theorem normalize_type_iter_eq (elems : List PyValue) : normalize_type .none (.iter elems) =
    (if elems.all PyValue.isStr = true then .ok TYPE_MULTI_SZ
     else .error (.runtime "Unknown type")) := rfl

theorem normalize_type_strHint_eq (s : String) (v : PyValue) : normalize_type (.str s) v =
    (match typeMember s with
     | some t => .ok t
     | Option.none => .error Err.key) := rfl

/-- C3: type inference matches the decision table of the spec.  With no
hint: a string infers `SZ`, `None` infers `NONE`, an integer in the
exclusive range `(-2^31, 2^32-1)` infers `DWORD`, an integer outside it
but inside the exclusive range `(-2^63, 2^64-1)` infers `QWORD`, an
iterable of only strings infers `MULTI_SZ`.  An integer hint is returned
verbatim for any value.  A string hint naming a known tag returns that
tag and an unknown name fails with the lookup error (`KeyError`).  A
64-bit-overflowing integer, an iterable with a non-string element, and a
non-inferable value all fail with the generic
`RuntimeError("Unknown type")`. -/
theorem C3_type_inference_table :
    (∀ s, normalize_type .none (.str s) = .ok TYPE_SZ) ∧
    normalize_type .none .none = .ok TYPE_NONE ∧
    (∀ n : Int, -0x80000000 < n → n < 0xffffffff →
      normalize_type .none (.int n) = .ok TYPE_DWORD) ∧
    (∀ n : Int, ¬(-0x80000000 < n ∧ n < 0xffffffff) →
      -0x8000000000000000 < n → n < 0xffffffffffffffff →
      normalize_type .none (.int n) = .ok TYPE_QWORD) ∧
    (∀ elems : List PyValue, elems.all PyValue.isStr = true →
      normalize_type .none (.iter elems) = .ok TYPE_MULTI_SZ) ∧
    (∀ (n : Int) (v : PyValue), normalize_type (.int n) v = .ok n) ∧
    (∀ (s : String) (v : PyValue) (t : Int), typeMember s = some t →
      normalize_type (.str s) v = .ok t) ∧
    (∀ (s : String) (v : PyValue), typeMember s = none →
      normalize_type (.str s) v = .error .key) ∧
    (∀ n : Int, ¬(-0x8000000000000000 < n ∧ n < 0xffffffffffffffff) →
      normalize_type .none (.int n) = .error (.runtime "Unknown type")) ∧
    (∀ elems : List PyValue, elems.all PyValue.isStr = false →
      normalize_type .none (.iter elems) = .error (.runtime "Unknown type")) ∧
    normalize_type .none .other = .error (.runtime "Unknown type") := by
  refine ⟨fun s => rfl, rfl, ?_, ?_, ?_, fun n v => rfl, ?_, ?_, ?_, ?_, rfl⟩
  · intro n h1 h2
    rw [normalize_type_int_eq, if_pos ⟨h1, h2⟩]
  · intro n h1 h2 h3
    rw [normalize_type_int_eq, if_neg h1, if_pos ⟨h2, h3⟩]
  · intro elems h
    rw [normalize_type_iter_eq, if_pos h]
  · intro s v t h
    rw [normalize_type_strHint_eq, h]
  · intro s v h
    rw [normalize_type_strHint_eq, h]
  · intro n h
    have hd : ¬(-0x80000000 < n ∧ n < 0xffffffff) := by omega
    rw [normalize_type_int_eq, if_neg hd, if_neg h]
  · intro elems h
    rw [normalize_type_iter_eq, h]
    simp

theorem C3_type_inference_table_witness :
    normalize_type .none (.str "x") = .ok TYPE_SZ ∧
    normalize_type .none (.int 5) = .ok TYPE_DWORD ∧
    normalize_type .none (.int (2 ^ 40)) = .ok TYPE_QWORD ∧
    normalize_type .none (.iter [.str "a", .str "b"]) = .ok TYPE_MULTI_SZ ∧
    normalize_type (.int 999) (.str "anything") = .ok 999 ∧
    normalize_type (.str "QWORD") (.int 1) = .ok TYPE_QWORD ∧
    normalize_type (.str "NOPE") (.int 0) = .error .key ∧
    normalize_type .none (.int (2 ^ 70)) = .error (.runtime "Unknown type") := by
  obtain ⟨h1, _h2, h3, h4, h5, h6, h7, h8, h9, _h10, _h11⟩ := C3_type_inference_table
  exact ⟨h1 "x", h3 5 (by decide) (by decide),
    h4 (2 ^ 40) (by decide) (by decide) (by decide),
    h5 [.str "a", .str "b"] (by decide),
    h6 999 (.str "anything"),
    h7 "QWORD" (.int 1) 11 (by decide),
    h8 "NOPE" (.int 0) (by decide),
    h9 (2 ^ 70) (by decide)⟩

/-- C1 (code bug): `__new__` looks `(remote_host, parts)` up in `_CACHE`
but never inserts anything — the source has no assignment into `_CACHE` —
so resolving the same valid component sequence twice constructs two
distinct live objects: resolving `HKCU\Software` twice from the
module-load state yields two different heap identities while `_CACHE`
stays empty throughout, contradicting `resolve(p) is resolve(p)` and the
at-most-one-live-object invariant.  `c1probe` performs exactly this
double resolution. -/
theorem C1_cache_never_populated : c1probe = true := by decide

set_option maxHeartbeats 4000000 in
/-- C2 (code bug): on the spec's own example — a key with two sub-keys
and three values — `rmtree()` does not leave `exists()` false for the key
and its descendants.  `clear()` deletes sub-keys by ascending index
without re-querying, so after deleting the first child, `EnumKey(key, 1)`
fails with `OSError` 259 and the second child survives; and the value
loop calls `EnumKey` instead of `EnumValue`, so once sub-keys are gone it
fails with `OSError` 259 before deleting a single value.  `c2probe` runs
`rmtree()` on `HKCU\Test` (two sub-keys, three values: error 259, key
and second child and all values survive) and on `HKCU\V` (no sub-keys,
one value: error 259, value survives). -/
theorem C2_rmtree_fails_on_spec_example : c2probe = true := by decide

/-- C5 counterexample: the claim says precondition violations are
"raised before any collaborator call".  Running `mkdir(exist_ok=False)`
on the existing path `HKCU\Exist` from a state with an empty collaborator
trace raises `ValueError("Already exists")` with a non-empty trace at the
raise point: the `exists()` check already invoked the collaborator's
`OpenKeyEx` before the raise. -/
theorem C5_counterexample_collaborator_call_before_raise : c5probe = true := by decide

/-- C9 counterexample: the claim quantifies over every path with at
least two components and attributes the single-component failure to the
empty-sequence rejection.  Both parts fail on the code: `parent` of the
two-component path `FOO\Bar` (unknown hive name) raises `KeyError` from
`_HIVES[parts[0]]` instead of producing a parent object, and `parent` of
the `HKCU` hive singleton raises `IndexError` at `parts[0]` — not the
`RuntimeError("Empty path or missing component")` of the empty-sequence
rejection, which is only reachable for string input. -/
theorem C9_counterexample_parent_error_kinds : c9probe = true := by decide

theorem getObj_pushTrace (st : St) (c : Call) (id : Nat) :
    getObj (pushTrace st c) id = getObj st id := rfl

theorem assocFind_assocUpdate_self {κ α : Type} [DecidableEq κ]
    (l : List (κ × α)) (k : κ) (f : α → α) (a : α) (h : assocFind l k = some a) :
    assocFind (assocUpdate l k f) k = some (f a) := by
  induction l with
  | nil => simp [assocFind] at h
  | cons p rest ih =>
    obtain ⟨k1, a1⟩ := p
    by_cases hk : k1 = k
    · subst hk
      simp [assocFind, assocUpdate] at h ⊢
      simp [h]
    · simp [assocFind, assocUpdate, hk] at h ⊢
      exact ih h

theorem getObj_setKey_self (st : St) (id : Nat) (k : Option Int) (obj : PathObj)
    (h : getObj st id = some obj) :
    getObj (setKey st id k) id = some { obj with key := k } := by
  unfold getObj setKey at *
  exact assocFind_assocUpdate_self st.heap id (fun o => { o with key := k }) obj h

theorem eraseTrace_pushTrace (st : St) (c : Call) :
    eraseTrace (pushTrace st c) = eraseTrace st := rfl

theorem openM_opened (fuel id : Nat) (st : St) (obj : PathObj)
    (hobj : getObj st id = some obj) (hk : obj.key.isSome = true) :
    openM fuel id st = .ok () st := by
  unfold openM
  rw [hobj]
  simp [hk]

/-- Exhaustive outcome analysis of `close()`: a no-op when no handle is
held or on a local hive root; otherwise one `CloseKey` call whose failure
(injected fault or unknown handle) is swallowed leaving `key` set, and
whose success clears `key` (releasing the table handle when there is
one). -/
theorem closeM_shape (fuel id : Nat) (st : St) (obj : PathObj)
    (hobj : getObj st id = some obj) :
    closeM fuel id st =
      match obj.key with
      | none => Res.ok () st
      | some h =>
        if ¬ obj.parts.length = 1 ∨ obj.remote.isSome then
          if h ∈ st.sys.closeFails then Res.ok () (pushTrace st (.closeKey h))
          else
            match hiveOfConst h with
            | some _ => Res.ok () (setKey (pushTrace st (.closeKey h)) id none)
            | Option.none =>
              match assocFind st.sys.handles h with
              | some _ =>
                Res.ok () (setKey (removeHandle (pushTrace st (.closeKey h)) h) id none)
              | Option.none => Res.ok () (pushTrace st (.closeKey h))
        else Res.ok () st := by
  cases hk : obj.key with
  | none =>
    unfold closeM
    rw [hobj]
    simp [hk]
  | some h =>
    unfold closeM
    rw [hobj]
    simp only [hk, Option.isSome_some, true_and]
    by_cases hg : ¬ obj.parts.length = 1 ∨ obj.remote.isSome
    · rw [if_pos hg, if_pos hg]
      unfold selfKeyAfterOpen
      rw [openM_opened fuel id st obj hobj (by simp [hk])]
      dsimp only
      rw [hobj]
      dsimp only
      rw [hk]
      dsimp only
      unfold wCloseKey
      by_cases hcf : h ∈ st.sys.closeFails
      · simp [pushTrace, hcf]
      · cases hh : hiveOfConst h with
        | some n => simp [pushTrace, hcf, hh]
        | none =>
          cases hf : assocFind st.sys.handles h with
          | some loc => simp [pushTrace, removeHandle, setKey, hcf, hh, hf]
          | none => simp [pushTrace, hcf, hh, hf]
    · rw [if_neg hg, if_neg hg]

/-- C4: for every path object in every state, `close()` never raises;
closing twice has the same observable effect (state up to the
instrumentation trace) as closing once; `close()` is a no-op when the
path holds no handle and a no-op on a local non-remote hive root; a
remote path's handle (hive root connection or sub-key) is closed — the
`CloseKey` collaborator call is made and, when it succeeds, the handle is
released and `key` cleared — while any `OSError` during the release is
discarded. -/
theorem C4_close_idempotent_never_raises :
    ∀ (fuel id : Nat) (st : St) (obj : PathObj), getObj st id = some obj →
    (∃ st1, closeM fuel id st = Res.ok () st1) ∧
    (∀ st1 st2, closeM fuel id st = Res.ok () st1 → closeM fuel id st1 = Res.ok () st2 →
      eraseTrace st2 = eraseTrace st1) ∧
    (obj.key = none → closeM fuel id st = Res.ok () st) ∧
    (obj.parts.length = 1 → obj.remote = none → closeM fuel id st = Res.ok () st) ∧
    (∀ h, obj.key = some h → obj.remote.isSome →
      h ∉ st.sys.closeFails →
      ((hiveOfConst h).isSome ∨ (assocFind st.sys.handles h).isSome) →
      ∃ st1, closeM fuel id st = Res.ok () st1 ∧
        getObj st1 id = some { obj with key := none }) := by
  intro fuel id st obj hobj
  refine ⟨?_, ?_, ?_, ?_, ?_⟩
  · rw [closeM_shape fuel id st obj hobj]
    cases hk : obj.key with
    | none => exact ⟨st, rfl⟩
    | some h =>
      dsimp only
      by_cases hg : ¬ obj.parts.length = 1 ∨ obj.remote.isSome
      · rw [if_pos hg]
        by_cases hcf : h ∈ st.sys.closeFails
        · rw [if_pos hcf]
          exact ⟨_, rfl⟩
        · rw [if_neg hcf]
          cases hh : hiveOfConst h with
          | some n => exact ⟨_, rfl⟩
          | none =>
            cases hf : assocFind st.sys.handles h with
            | some loc => exact ⟨_, rfl⟩
            | none => exact ⟨_, rfl⟩
      · rw [if_neg hg]
        exact ⟨st, rfl⟩
  · intro st1 st2 h1 h2
    rw [closeM_shape fuel id st obj hobj] at h1
    cases hk : obj.key with
    | none =>
      rw [hk] at h1
      dsimp only at h1
      injection h1 with ha hst
      subst hst
      rw [closeM_shape fuel id st obj hobj, hk] at h2
      dsimp only at h2
      injection h2 with ha2 hst2
      subst hst2
      rfl
    | some h =>
      rw [hk] at h1
      dsimp only at h1
      by_cases hg : ¬ obj.parts.length = 1 ∨ obj.remote.isSome
      · rw [if_pos hg] at h1
        by_cases hcf : h ∈ st.sys.closeFails
        · rw [if_pos hcf] at h1
          injection h1 with ha hst
          subst hst
          have hobj1 : getObj (pushTrace st (.closeKey h)) id = some obj := hobj
          rw [closeM_shape fuel id _ obj hobj1, hk] at h2
          dsimp only at h2
          rw [if_pos hg] at h2
          have hcf1 : h ∈ (pushTrace st (.closeKey h)).sys.closeFails := hcf
          rw [if_pos hcf1] at h2
          injection h2 with ha2 hst2
          subst hst2
          rfl
        · rw [if_neg hcf] at h1
          cases hh : hiveOfConst h with
          | some n =>
            rw [hh] at h1
            dsimp only at h1
            injection h1 with ha hst
            subst hst
            have hobj1 : getObj (setKey (pushTrace st (.closeKey h)) id none) id =
                some { obj with key := none } :=
              getObj_setKey_self (pushTrace st (.closeKey h)) id none obj hobj
            rw [closeM_shape fuel id _ _ hobj1] at h2
            dsimp only at h2
            injection h2 with ha2 hst2
            subst hst2
            rfl
          | none =>
            rw [hh] at h1
            dsimp only at h1
            cases hf : assocFind st.sys.handles h with
            | some loc =>
              rw [hf] at h1
              dsimp only at h1
              injection h1 with ha hst
              subst hst
              have hobj1 : getObj (setKey (removeHandle (pushTrace st (.closeKey h)) h) id none) id =
                  some { obj with key := none } :=
                getObj_setKey_self (removeHandle (pushTrace st (.closeKey h)) h) id none obj hobj
              rw [closeM_shape fuel id _ _ hobj1] at h2
              dsimp only at h2
              injection h2 with ha2 hst2
              subst hst2
              rfl
            | none =>
              rw [hf] at h1
              dsimp only at h1
              injection h1 with ha hst
              subst hst
              have hobj1 : getObj (pushTrace st (.closeKey h)) id = some obj := hobj
              rw [closeM_shape fuel id _ obj hobj1, hk] at h2
              dsimp only at h2
              rw [if_pos hg] at h2
              have hcf1 : h ∉ (pushTrace st (.closeKey h)).sys.closeFails := hcf
              rw [if_neg hcf1] at h2
              have hh1 : hiveOfConst h = none := hh
              rw [hh1] at h2
              dsimp only at h2
              have hf1 : assocFind (pushTrace st (.closeKey h)).sys.handles h = none := hf
              rw [hf1] at h2
              dsimp only at h2
              injection h2 with ha2 hst2
              subst hst2
              rfl
      · rw [if_neg hg] at h1
        injection h1 with ha hst
        subst hst
        rw [closeM_shape fuel id st obj hobj, hk] at h2
        dsimp only at h2
        rw [if_neg hg] at h2
        injection h2 with ha2 hst2
        subst hst2
        rfl
  · intro hkey
    rw [closeM_shape fuel id st obj hobj, hkey]
  · intro hlen hrem
    rw [closeM_shape fuel id st obj hobj]
    cases hk : obj.key with
    | none => rfl
    | some h =>
      dsimp only
      rw [if_neg (by simp [hlen, hrem])]
  · intro h hkey hrem hc hsucc
    rw [closeM_shape fuel id st obj hobj, hkey]
    dsimp only
    rw [if_pos (Or.inr hrem), if_neg hc]
    cases hh : hiveOfConst h with
    | some n =>
      exact ⟨_, rfl, getObj_setKey_self (pushTrace st (.closeKey h)) id none obj hobj⟩
    | none =>
      cases hsucc with
      | inl hl => rw [hh] at hl; simp at hl
      | inr hr =>
        cases hf : assocFind st.sys.handles h with
        | none => rw [hf] at hr; simp at hr
        | some loc =>
          exact ⟨_, rfl,
            getObj_setKey_self (removeHandle (pushTrace st (.closeKey h)) h) id none obj hobj⟩

theorem C4_close_idempotent_never_raises_witness :
    (∃ st1, closeM 5 0 faultSt = Res.ok () st1) ∧
    (∃ st1, closeM 5 0 okSt = Res.ok () st1 ∧
      getObj st1 0 = some ⟨["HKEY_LOCAL_MACHINE", "Soft"], some "\\\\srv", none⟩) := by
  constructor
  · exact (C4_close_idempotent_never_raises 5 0 faultSt
      ⟨["HKEY_LOCAL_MACHINE", "Soft"], some "\\\\srv", some 42⟩ rfl).1
  · exact (C4_close_idempotent_never_raises 5 0 okSt
      ⟨["HKEY_LOCAL_MACHINE", "Soft"], some "\\\\srv", some 42⟩ rfl).2.2.2.2
      42 rfl rfl (by decide) (by decide)

/-- C10: when the collaborator's `CloseKey` fails with an `OSError` on an
open non-hive or remote path, `close()` returns normally but the `key`
field is not cleared, so the path still reports `is_opened`; the handle
is cleared exactly when the collaborator's close succeeds. -/
theorem C10_close_failure_keeps_handle :
    ∀ (fuel id : Nat) (st : St) (obj : PathObj) (h : Int),
    getObj st id = some obj → obj.key = some h →
    (¬ obj.parts.length = 1 ∨ obj.remote.isSome) →
    (h ∈ st.sys.closeFails →
      closeM fuel id st = Res.ok () (pushTrace st (.closeKey h)) ∧
      getObj (pushTrace st (.closeKey h)) id = some obj) ∧
    (h ∉ st.sys.closeFails →
      ((hiveOfConst h).isSome ∨ (assocFind st.sys.handles h).isSome) →
      ∃ st1, closeM fuel id st = Res.ok () st1 ∧
        getObj st1 id = some { obj with key := none }) := by
  intro fuel id st obj h hobj hkey hg
  constructor
  · intro hcf
    refine ⟨?_, hobj⟩
    rw [closeM_shape fuel id st obj hobj, hkey]
    dsimp only
    rw [if_pos hg, if_pos hcf]
  · intro hcf hsucc
    rw [closeM_shape fuel id st obj hobj, hkey]
    dsimp only
    rw [if_pos hg, if_neg hcf]
    cases hh : hiveOfConst h with
    | some n =>
      exact ⟨_, rfl, getObj_setKey_self (pushTrace st (.closeKey h)) id none obj hobj⟩
    | none =>
      cases hsucc with
      | inl hl => rw [hh] at hl; simp at hl
      | inr hr =>
        cases hf : assocFind st.sys.handles h with
        | none => rw [hf] at hr; simp at hr
        | some loc =>
          exact ⟨_, rfl,
            getObj_setKey_self (removeHandle (pushTrace st (.closeKey h)) h) id none obj hobj⟩

theorem C10_close_failure_keeps_handle_witness :
    closeM 5 0 faultSt = Res.ok () (pushTrace faultSt (.closeKey 42)) ∧
    getObj (pushTrace faultSt (.closeKey 42)) 0 =
      some ⟨["HKEY_LOCAL_MACHINE", "Soft"], some "\\\\srv", some 42⟩ :=
  (C10_close_failure_keeps_handle 5 0 faultSt
    ⟨["HKEY_LOCAL_MACHINE", "Soft"], some "\\\\srv", some 42⟩ 42 rfl rfl
    (Or.inl (by decide))).1 (by decide)

/-- C6: `exists()` returns `true` immediately (state untouched, no
collaborator call) when the path is already open; otherwise it runs
`open()` and returns `true` on success, returns `false` exactly when
`open()` fails with the not-found error (`OSError` with `winerror = 2`),
and propagates every other failure unchanged (same error, same state). -/
theorem C6_exists_semantics :
    ∀ (fuel id : Nat) (st : St) (obj : PathObj), getObj st id = some obj →
    (obj.key.isSome → existsM fuel id st = Res.ok true st) ∧
    (obj.key = none →
      (∀ st', openM fuel id st = Res.ok () st' → existsM fuel id st = Res.ok true st') ∧
      (∀ st', openM fuel id st = Res.err (.os 2) st' → existsM fuel id st = Res.ok false st') ∧
      (∀ e st', openM fuel id st = Res.err e st' → e ≠ .os 2 →
        existsM fuel id st = Res.err e st')) := by
  intro fuel id st obj hobj
  constructor
  · intro hk
    unfold existsM
    rw [hobj]
    dsimp only
    rw [if_pos hk]
  · intro hk
    refine ⟨?_, ?_, ?_⟩
    · intro st' hopen
      unfold existsM
      rw [hobj]
      dsimp only
      rw [if_neg (by simp [hk]), hopen]
    · intro st' hopen
      unfold existsM
      rw [hobj]
      dsimp only
      rw [if_neg (by simp [hk]), hopen]
      dsimp only
      rw [if_pos rfl]
    · intro e st' hopen hne
      unfold existsM
      rw [hobj]
      dsimp only
      rw [if_neg (by simp [hk]), hopen]
      cases e with
      | os n =>
        dsimp only
        rw [if_neg (fun hn => hne (by rw [hn]))]
      | value m => rfl
      | runtime m => rfl
      | key => rfl
      | index => rfl
      | fuel => rfl

theorem C6_exists_semantics_witness :
    ∃ st', existsM 10 (residOf c6Nope) (resState c6Nope) = Res.ok false st' := by
  have h := ((C6_exists_semantics 10 (residOf c6Nope) (resState c6Nope)
    ⟨["HKEY_CURRENT_USER", "Nope"], none, none⟩ rfl).2 rfl).2.1 _ rfl
  exact ⟨_, h⟩

/-- C7: the first component is canonicalized through `HK_ALIASES` before
any lookup (resolving `p0 :: rest` is the same as resolving
`aliasGet p0 :: rest`); a one-component local path whose canonical name
is registered in `HIVES` returns the pre-registered singleton with the
state untouched; concretely, `RegPath("HKCU")` and
`RegPath("HKEY_CURRENT_USER")` both return the singleton with heap id 2
from the module-load state. -/
theorem C7_alias_canonicalization_singleton :
    (∀ (st : St) (p0 : String) (rest : List String) (rh : Option String),
      regPathNewCore (p0 :: rest) rh st = regPathNewCore (aliasGet p0 :: rest) rh st) ∧
    (∀ (st : St) (s : String) (i : Nat), assocFind st.hives (aliasGet s) = some i →
      regPathNew (.listI [s]) none st = Res.ok i st) ∧
    regPathNew (.strI "HKCU") none initSt = Res.ok 2 initSt ∧
    regPathNew (.strI "HKEY_CURRENT_USER") none initSt = Res.ok 2 initSt := by
  refine ⟨?_, ?_, rfl, rfl⟩
  · intro st p0 rest rh
    unfold regPathNewCore
    dsimp only
    rw [aliasGet_idem]
  · intro st s i h
    unfold regPathNew regPathNewCore
    dsimp only
    rw [if_pos ⟨rfl, rfl⟩, h]

theorem C7_alias_canonicalization_singleton_witness :
    regPathNew (.listI ["HKCU"]) none initSt = Res.ok 2 initSt :=
  C7_alias_canonicalization_singleton.2.1 initSt "HKCU" 2 (by decide)

theorem strSplit_unc_cond (t : List String) (ht : t ≠ []) :
    3 ≤ ("" :: "" :: t).length ∧ ("" :: "" :: t).getD 0 "x" = "" ∧
      ("" :: "" :: t).getD 1 "x" = "" := by
  refine ⟨?_, rfl, rfl⟩
  have h1 : 0 < t.length := List.length_pos.mpr ht
  simp only [List.length_cons]
  omega

theorem strSplit_unc_conflict (s : String) (t : List String) (r : String)
    (h : pySplitBS s = "" :: "" :: t) (ht : t ≠ []) :
    strSplit s (some r) =
      .error (.value "Remote host given using argument, but path already has remote host") := by
  unfold strSplit
  rw [h]
  rw [if_pos (strSplit_unc_cond t ht)]

theorem strSplit_unc_extract (s host : String) (rest : List String)
    (h : pySplitBS s = "" :: "" :: host :: rest) (hr : rest ≠ []) :
    strSplit s none = .ok (rest, some ("\\\\" ++ host)) := by
  unfold strSplit
  rw [h]
  rw [if_pos (strSplit_unc_cond (host :: rest) (by simp))]
  simp [hr]

theorem strSplit_drop_leading (s h0 : String) (t : List String) (rh : Option String)
    (h : pySplitBS s = "" :: h0 :: t) (h0ne : h0 ≠ "") :
    strSplit s rh = .ok (h0 :: t, rh) := by
  unfold strSplit
  rw [h]
  rw [if_neg (by simp [h0ne])]
  simp

theorem strSplit_empty_single (s : String) (rh : Option String)
    (h : pySplitBS s = [""]) :
    strSplit s rh = .error (.runtime "Empty path or missing component") := by
  unfold strSplit
  rw [h]
  rw [if_neg (by simp)]
  simp

theorem strSplit_empty_unc (s host : String)
    (h : pySplitBS s = ["", "", host]) :
    strSplit s none = .error (.runtime "Empty path or missing component") := by
  unfold strSplit
  rw [h]
  rw [if_pos (strSplit_unc_cond [host] (by simp))]
  simp

/-- C8: the string-input processing of `__new__`.  A string splitting to
two leading empty segments and at least three segments in total (a
UNC-style `\\host\...`) has its third segment extracted as the remote
host re-prefixed with `\\`, and resolution continues on the remaining
components; supplying an explicit `remote_host` argument at the same
time is a hard `ValueError`.  A single leading separator drops the
leading empty segment.  A component sequence that is empty after this
processing (the empty string, or a UNC string with exactly three
segments) raises `RuntimeError("Empty path or missing component")`
synchronously during resolution.  Concretely,
`RegPath("\\\\srv\\HKLM\\Soft")` yields an object with
`remote_host = "\\\\srv"` and parts `["HKEY_LOCAL_MACHINE", "Soft"]`. -/
theorem C8_string_splitting :
    (∀ (s : String) (t : List String) (r : String) (st : St),
      pySplitBS s = "" :: "" :: t → t ≠ [] →
      regPathNew (.strI s) (some r) st =
        Res.err (.value "Remote host given using argument, but path already has remote host") st) ∧
    (∀ (s host : String) (rest : List String) (st : St),
      pySplitBS s = "" :: "" :: host :: rest → rest ≠ [] →
      regPathNew (.strI s) none st = regPathNewCore rest (some ("\\\\" ++ host)) st) ∧
    (∀ (s h0 : String) (t : List String) (rh : Option String) (st : St),
      pySplitBS s = "" :: h0 :: t → h0 ≠ "" →
      regPathNew (.strI s) rh st = regPathNewCore (h0 :: t) rh st) ∧
    (∀ (s : String) (rh : Option String) (st : St), pySplitBS s = [""] →
      regPathNew (.strI s) rh st = Res.err (.runtime "Empty path or missing component") st) ∧
    (∀ (s host : String) (st : St), pySplitBS s = ["", "", host] →
      regPathNew (.strI s) none st = Res.err (.runtime "Empty path or missing component") st) ∧
    (∃ (i : Nat) (st' : St),
      regPathNew (.strI "\\\\srv\\HKLM\\Soft") none initSt = Res.ok i st' ∧
      getObj st' i = some ⟨["HKEY_LOCAL_MACHINE", "Soft"], some "\\\\srv", none⟩) := by
  refine ⟨?_, ?_, ?_, ?_, ?_, ⟨7, _, rfl, rfl⟩⟩
  · intro s t r st h ht
    unfold regPathNew
    dsimp only
    rw [strSplit_unc_conflict s t r h ht]
  · intro s host rest st h hr
    unfold regPathNew
    dsimp only
    rw [strSplit_unc_extract s host rest h hr]
  · intro s h0 t rh st h h0ne
    unfold regPathNew
    dsimp only
    rw [strSplit_drop_leading s h0 t rh h h0ne]
  · intro s rh st h
    unfold regPathNew
    dsimp only
    rw [strSplit_empty_single s rh h]
  · intro s host st h
    unfold regPathNew
    dsimp only
    rw [strSplit_empty_unc s host h]

theorem C8_string_splitting_witness :
    regPathNew (.strI "\\\\srv\\HKLM\\S") (some "x") initSt =
      Res.err (.value "Remote host given using argument, but path already has remote host") initSt ∧
    regPathNew (.strI "\\\\srv\\HKLM\\Soft") none initSt =
      regPathNewCore ["HKLM", "Soft"] (some "\\\\srv") initSt ∧
    regPathNew (.strI "\\HKCU\\X") none initSt = regPathNewCore ["HKCU", "X"] none initSt ∧
    regPathNew (.strI "") none initSt =
      Res.err (.runtime "Empty path or missing component") initSt ∧
    regPathNew (.strI "\\\\srv") none initSt =
      Res.err (.runtime "Empty path or missing component") initSt := by
  obtain ⟨h1, h2, h3, h4, h5, _h6⟩ := C8_string_splitting
  exact ⟨h1 "\\\\srv\\HKLM\\S" ["srv", "HKLM", "S"] "x" initSt (by decide) (by decide),
    h2 "\\\\srv\\HKLM\\Soft" "srv" ["HKLM", "Soft"] initSt (by decide) (by decide),
    h3 "\\HKCU\\X" "HKCU" ["X"] none initSt (by decide) (by decide),
    h4 "" none initSt (by decide),
    h5 "\\\\srv" "srv" initSt (by decide)⟩

theorem assocFind_append_self {κ α : Type} [DecidableEq κ] (l : List (κ × α)) (k : κ) (a : α)
    (h : assocFind l k = none) : assocFind (l ++ [(k, a)]) k = some a := by
  induction l with
  | nil => simp [assocFind]
  | cons p rest ih =>
    obtain ⟨k1, a1⟩ := p
    by_cases hk : k1 = k
    · rw [hk] at h
      simp [assocFind] at h
    · simp only [List.cons_append, assocFind, if_neg hk] at h ⊢
      exact ih h

/-- C9 (amended): `parent` resolves `components[:-1]` with the same
remote host.  For a path with at least two components this yields an
object with `parts = components[:-1]` and the same `remote_host` —
freshly allocated when the parent is not a registered local hive
(including every remote parent), and the pre-registered hive singleton
when it is (shown concretely: the parent of `HKCU\Software` is the
`HKEY_CURRENT_USER` singleton) — except that a two-component local path
with an unregistered hive name fails with `KeyError`; a single-component
path fails with `IndexError` at `parts[0]` (the explicit empty-sequence
rejection applies only to string input). -/
theorem C9_parent_amended :
    (∀ (st : St) (id : Nat) (obj : PathObj), getObj st id = some obj →
      obj.parts.length = 1 → parentM id st = Res.err .index st) ∧
    (∀ (st : St) (id : Nat) (obj : PathObj) (p0 : String) (rest : List String),
      getObj st id = some obj → obj.parts = p0 :: rest → rest ≠ [] →
      aliasGet p0 = p0 → st.cache = [] → assocFind st.heap st.nextId = none →
      (2 ≤ rest.length ∨ obj.remote.isSome) →
      ∃ st', parentM id st = Res.ok st.nextId st' ∧
        getObj st' st.nextId = some ⟨obj.parts.dropLast, obj.remote, none⟩) ∧
    (∀ (st : St) (id : Nat) (obj : PathObj) (p0 r : String) (i : Nat),
      getObj st id = some obj → obj.parts = [p0, r] → obj.remote = none →
      aliasGet p0 = p0 → assocFind st.hives p0 = some i →
      parentM id st = Res.ok i st) ∧
    (∀ (st : St) (id : Nat) (obj : PathObj) (p0 r : String),
      getObj st id = some obj → obj.parts = [p0, r] → obj.remote = none →
      aliasGet p0 = p0 → st.cache = [] → assocFind st.hives p0 = none →
      hiveConst p0 = none → parentM id st = Res.err .key st) ∧
    (∃ st1, regPathNew (.strI "HKCU\\Software") none initSt = Res.ok 7 st1 ∧
      parentM 7 st1 = Res.ok 2 st1 ∧
      getObj st1 2 = some ⟨["HKEY_CURRENT_USER"], none, some 0x80000001⟩) := by
  refine ⟨?_, ?_, ?_, ?_, ⟨_, rfl, rfl, rfl⟩⟩
  · intro st id obj hobj hlen
    unfold parentM
    rw [hobj]
    dsimp only
    have hd : obj.parts.dropLast = [] := by
      cases hp : obj.parts with
      | nil => rfl
      | cons a l =>
        rw [hp] at hlen
        simp only [List.length_cons] at hlen
        have hl : l = [] := List.length_eq_zero.mp (by omega)
        subst hl
        rfl
    rw [hd]
    rfl
  · intro st id obj p0 rest hobj hp hr halias hcache hfresh hcase
    unfold parentM
    rw [hobj]
    dsimp only
    obtain ⟨a, l, rfl⟩ : ∃ a l, rest = a :: l := by
      cases rest with
      | nil => exact absurd rfl hr
      | cons a l => exact ⟨a, l, rfl⟩
    have hd : obj.parts.dropLast = p0 :: (a :: l).dropLast := by rw [hp]; rfl
    have hcond : ¬((p0 :: (a :: l).dropLast).length = 1 ∧ obj.remote = none) := by
      rintro ⟨hl, hn⟩
      cases hcase with
      | inl h2 =>
        simp only [List.length_cons, List.length_dropLast] at hl h2
        omega
      | inr hrem =>
        rw [hn] at hrem
        simp at hrem
    rw [hd]
    unfold regPathNew regPathNewCore
    dsimp only
    rw [halias, if_neg hcond]
    unfold cacheOrNew
    rw [hcache]
    dsimp only [assocFind]
    rw [if_neg hcond]
    dsimp only
    refine ⟨_, rfl, ?_⟩
    exact assocFind_append_self st.heap st.nextId _ hfresh
  · intro st id obj p0 r i hobj hp hrem halias hhive
    unfold parentM
    rw [hobj]
    dsimp only
    have hd : obj.parts.dropLast = [p0] := by rw [hp]; rfl
    rw [hd]
    unfold regPathNew regPathNewCore
    dsimp only
    rw [halias, if_pos ⟨rfl, hrem⟩, hhive]
  · intro st id obj p0 r hobj hp hrem halias hcache hhive hconst
    unfold parentM
    rw [hobj]
    dsimp only
    have hd : obj.parts.dropLast = [p0] := by rw [hp]; rfl
    rw [hd]
    unfold regPathNew regPathNewCore
    dsimp only
    rw [halias, if_pos ⟨rfl, hrem⟩, hhive]
    dsimp only
    unfold cacheOrNew
    rw [hcache]
    dsimp only [assocFind]
    rw [if_pos ⟨rfl, hrem⟩]
    rw [hconst]

theorem C9_parent_amended_witness :
    ∃ st', parentM (residOf c9Deep) (resState c9Deep) =
      Res.ok (resState c9Deep).nextId st' ∧
      getObj st' (resState c9Deep).nextId =
        some ⟨["HKEY_CURRENT_USER", "Software"], none, none⟩ :=
  C9_parent_amended.2.1 (resState c9Deep) (residOf c9Deep)
    ⟨["HKEY_CURRENT_USER", "Software", "X"], none, none⟩ "HKEY_CURRENT_USER" ["Software", "X"]
    rfl rfl (by decide) (by decide) rfl rfl (Or.inl (by decide))

theorem noCreateStep_refl (st : St) : noCreateStep st st :=
  ⟨rfl, [], by simp, rfl⟩

theorem noCreateStep_trans {a b c : St} (h1 : noCreateStep a b) (h2 : noCreateStep b c) :
    noCreateStep a c := by
  obtain ⟨hm1, tr1, ht1, ha1⟩ := h1
  obtain ⟨hm2, tr2, ht2, ha2⟩ := h2
  refine ⟨hm2.trans hm1, tr1 ++ tr2, ?_, ?_⟩
  · rw [ht2, ht1, List.append_assoc]
  · simp only [List.all_append, ha1, ha2]
    rfl

theorem setKey_noCreate (st st' : St) (id : Nat) (k : Option Int)
    (h : noCreateStep st st') : noCreateStep st (setKey st' id k) := h

theorem wConnectRegistry_noCreate (host : Option String) (hk : Int) (st : St) :
    noCreateStep st (resState (wConnectRegistry host hk st)) := by
  unfold wConnectRegistry
  dsimp only
  repeat' split
  all_goals exact ⟨rfl, [Call.connectRegistry host hk], rfl, rfl⟩

theorem wOpenKeyEx_noCreate (h : Int) (sub : String) (r a : Int) (st : St) :
    noCreateStep st (resState (wOpenKeyEx h sub r a st)) := by
  unfold wOpenKeyEx
  dsimp only
  repeat' split
  all_goals exact ⟨rfl, [Call.openKeyEx h sub r a], rfl, rfl⟩

/-- `open()` never issues a creation call and never touches a registry
tree: it only connects, opens and records the obtained handle. -/
theorem openM_noCreate : ∀ (fuel id : Nat) (st : St),
    noCreateStep st (resState (openM fuel id st)) := by
  intro fuel
  induction fuel with
  | zero =>
    intro id st
    unfold openM
    cases hO : getObj st id with
    | none => exact noCreateStep_refl st
    | some obj =>
      dsimp only
      cases hkey : obj.key with
      | some k => exact noCreateStep_refl st
      | none =>
        simp only [Option.isSome_none, Bool.false_eq_true, if_false]
        cases hrem : obj.remote with
        | some host =>
          dsimp only
          cases hparts : obj.parts with
          | nil => exact noCreateStep_refl st
          | cons p0 rest =>
            dsimp only
            cases hc : hiveConst p0 with
            | none => exact noCreateStep_refl st
            | some hcv =>
              dsimp only
              have hw := wConnectRegistry_noCreate (some host) hcv st
              cases hR : wConnectRegistry (some host) hcv st with
              | err e st2 => rw [hR] at hw; exact hw
              | ok h2 st2 =>
                rw [hR] at hw
                dsimp only
                cases rest with
                | nil => exact setKey_noCreate st st2 id (some h2) hw
                | cons r1 rs =>
                  have hw2 := wOpenKeyEx_noCreate h2 (joinBS (r1 :: rs)) 0 accessREAD st2
                  cases hR2 : wOpenKeyEx h2 (joinBS (r1 :: rs)) 0 accessREAD st2 with
                  | err e st3 => rw [hR2] at hw2; exact noCreateStep_trans hw hw2
                  | ok h3 st3 =>
                    rw [hR2] at hw2
                    exact setKey_noCreate st st3 id (some h3) (noCreateStep_trans hw hw2)
        | none =>
          dsimp only
          cases hparts : obj.parts with
          | nil => exact noCreateStep_refl st
          | cons p0 rest =>
            dsimp only
            cases hh : assocFind st.hives p0 with
            | none => exact noCreateStep_refl st
            | some hid => exact noCreateStep_refl st
  | succ fuel ih =>
    intro id st
    unfold openM
    cases hO : getObj st id with
    | none => exact noCreateStep_refl st
    | some obj =>
      dsimp only
      cases hkey : obj.key with
      | some k => exact noCreateStep_refl st
      | none =>
        simp only [Option.isSome_none, Bool.false_eq_true, if_false]
        cases hrem : obj.remote with
        | some host =>
          dsimp only
          cases hparts : obj.parts with
          | nil => exact noCreateStep_refl st
          | cons p0 rest =>
            dsimp only
            cases hc : hiveConst p0 with
            | none => exact noCreateStep_refl st
            | some hcv =>
              dsimp only
              have hw := wConnectRegistry_noCreate (some host) hcv st
              cases hR : wConnectRegistry (some host) hcv st with
              | err e st2 => rw [hR] at hw; exact hw
              | ok h2 st2 =>
                rw [hR] at hw
                dsimp only
                cases rest with
                | nil => exact setKey_noCreate st st2 id (some h2) hw
                | cons r1 rs =>
                  have hw2 := wOpenKeyEx_noCreate h2 (joinBS (r1 :: rs)) 0 accessREAD st2
                  cases hR2 : wOpenKeyEx h2 (joinBS (r1 :: rs)) 0 accessREAD st2 with
                  | err e st3 => rw [hR2] at hw2; exact noCreateStep_trans hw hw2
                  | ok h3 st3 =>
                    rw [hR2] at hw2
                    exact setKey_noCreate st st3 id (some h3) (noCreateStep_trans hw hw2)
        | none =>
          dsimp only
          cases hparts : obj.parts with
          | nil => exact noCreateStep_refl st
          | cons p0 rest =>
            dsimp only
            cases hh : assocFind st.hives p0 with
            | none => exact noCreateStep_refl st
            | some hid =>
              dsimp only
              have hw := ih hid st
              cases hR : openM fuel hid st with
              | err e st2 => rw [hR] at hw; exact hw
              | ok u st2 =>
                rw [hR] at hw
                dsimp only
                cases hO2 : getObj st2 hid with
                | none => exact hw
                | some hobj =>
                  dsimp only
                  cases hk2 : hobj.key with
                  | none => exact hw
                  | some hk0 =>
                    dsimp only
                    have hw2 := wOpenKeyEx_noCreate hk0 (joinBS rest) 0 accessREAD st2
                    cases hR2 : wOpenKeyEx hk0 (joinBS rest) 0 accessREAD st2 with
                    | err e st3 => rw [hR2] at hw2; exact noCreateStep_trans hw hw2
                    | ok h3 st3 =>
                      rw [hR2] at hw2
                      exact setKey_noCreate st st3 id (some h3) (noCreateStep_trans hw hw2)

/-- `exists()` never issues a creation call and never touches a registry
tree. -/
theorem existsM_noCreate (fuel id : Nat) (st : St) :
    noCreateStep st (resState (existsM fuel id st)) := by
  unfold existsM
  cases hO : getObj st id with
  | none => exact noCreateStep_refl st
  | some obj =>
    dsimp only
    cases hkey : obj.key with
    | some k => exact noCreateStep_refl st
    | none =>
      simp only [Option.isSome_none, Bool.false_eq_true, if_false]
      have hw := openM_noCreate fuel id st
      cases hR : openM fuel id st with
      | ok u st2 => rw [hR] at hw; exact hw
      | err e st2 =>
        rw [hR] at hw
        cases e with
        | os n =>
          have hsplit : resState
              (if n = 2 then Res.ok false st2 else Res.err (Err.os n) st2) = st2 := by
            split <;> rfl
          show noCreateStep st (resState
            (if n = 2 then Res.ok false st2 else Res.err (Err.os n) st2))
          rw [hsplit]
          exact hw
        | value m => exact hw
        | runtime m => exact hw
        | key => exact hw
        | index => exact hw
        | fuel => exact hw

theorem regPathNewCore_sys (parts : List String) (rh : Option String) (st : St) :
    (resState (regPathNewCore parts rh st)).sys = st.sys := by
  unfold regPathNewCore cacheOrNew
  dsimp only
  repeat' split
  all_goals rfl

theorem parentM_sys (id : Nat) (st : St) : (resState (parentM id st)).sys = st.sys := by
  unfold parentM
  cases hO : getObj st id with
  | none => rfl
  | some obj =>
    unfold regPathNew
    exact regPathNewCore_sys obj.parts.dropLast obj.remote st

/-- C5 (amended): `mkdir(exist_ok=False)` on an existing path raises
`ValueError("Already exists")` and `mkdir(parents=False)` with a missing
parent raises `ValueError("Parent not exists")`; both are raised before
the creation call — no `CreateKeyEx` is issued and no registry tree is
changed — though the existence checks themselves may invoke the
collaborator's open (see the counterexample for the original wording).
Otherwise `mkdir` issues `CreateKeyEx` under the hive handle with read
access (`Access.READ`) and sets this object's `key` to the handle that
call returns. -/
theorem C5_mkdir_preconditions_amended :
    (∀ (fuel id : Nat) (parents : Bool) (st st' : St),
      existsM fuel id st = Res.ok true st' →
      mkdirM fuel parents false id st = Res.err (.value "Already exists") st' ∧
      noCreateStep st st') ∧
    (∀ (fuel id pid : Nat) (st st1 st2 : St),
      parentM id st = Res.ok pid st1 →
      existsM fuel pid st1 = Res.ok false st2 →
      mkdirM fuel false true id st = Res.err (.value "Parent not exists") st2 ∧
      noCreateStep st st2) ∧
    (∀ (fuel id : Nat) (st : St) (obj hiveObj : PathObj) (p0 : String) (rest : List String)
       (hid : Nat) (hk h : Int) (st' : St),
      getObj st id = some obj → obj.parts = p0 :: rest →
      assocFind st.hives p0 = some hid → getObj st hid = some hiveObj →
      hiveObj.key = some hk →
      wCreateKeyEx hk (joinBS rest) 0 accessREAD st = Res.ok h st' →
      mkdirM fuel true true id st = Res.ok () (setKey st' id (some h))) := by
  refine ⟨?_, ?_, ?_⟩
  · intro fuel id parents st st' hex
    constructor
    · unfold mkdirM
      dsimp only
      rw [if_pos rfl, hex]
      rfl
    · have h := existsM_noCreate fuel id st
      rw [hex] at h
      exact h
  · intro fuel id pid st st1 st2 hpar hex2
    constructor
    · unfold mkdirM
      dsimp only
      rw [if_neg (by simp), if_pos rfl, hpar]
      dsimp only
      rw [hex2]
      rfl
    · have h1 : noCreateStep st st1 := by
        have hs : st1.sys = st.sys := by
          have h := parentM_sys id st
          rw [hpar] at h
          exact h
        exact ⟨by rw [hs], [], by simp [hs], rfl⟩
      have h2 := existsM_noCreate fuel pid st1
      rw [hex2] at h2
      exact noCreateStep_trans h1 h2
  · intro fuel id st obj hiveObj p0 rest hid hk h st' hO hp hh hO2 hk2 hw
    unfold mkdirM
    dsimp only
    rw [if_neg (by simp), if_neg (by simp)]
    unfold mkdirCreate
    rw [hO]
    dsimp only
    rw [hp]
    dsimp only
    rw [hh]
    dsimp only
    unfold selfKeyAfterOpen
    rw [openM_opened fuel hid st hiveObj hO2 (by simp [hk2])]
    dsimp only
    rw [hO2]
    dsimp only
    rw [hk2]
    dsimp only
    rw [hw]

theorem C5_mkdir_preconditions_amended_witness :
    (∃ st', mkdirM 10 true false (residOf c5Exist) (resState c5Exist) =
      Res.err (.value "Already exists") st') ∧
    (∃ st', mkdirM 10 false true (residOf c5Miss) (resState c5Miss) =
      Res.err (.value "Parent not exists") st') := by
  constructor
  · have h := (C5_mkdir_preconditions_amended.1 10 (residOf c5Exist) true
      (resState c5Exist) _ rfl).1
    exact ⟨_, h⟩
  · have h := (C5_mkdir_preconditions_amended.2.1 10 (residOf c5Miss) _
      (resState c5Miss) _ _ rfl rfl).1
    exact ⟨_, h⟩
